import Mathlib

/-!
Shallow embedding of the MindSpore remote training-session debugger
(`mindspore/ccsrc/debug/debugger/debugger.cc`) and proofs checking the
natural-language specification against it.

Modelling conventions:
* C++ `std::string` is Lean `String`; character comparisons are comparisons
  of character codes, as in C++.
* Machine integers are `Nat`/`Int` with explicit `% 2 ^ w` where overflow or
  conversion matters.  `char` is modelled as a signed byte (`Int` in
  `[-128, 127]`), the default on x86-64 Linux where this file is built.
* Environment lookups (`getenv`), the GPU runtime dump flag, directory
  listings and transport replies are inputs to the embedded functions.
* Externally visible effects (gRPC sends, sleeps, process exit, ...) are
  reified as a `DebugAction` trace returned next to the new state.
-/

namespace Mindspore

/-! ## Protocol data (debugger.proto side) -/

/-- A `TensorProto` as it arrives in a `view` command: the identity of one
requested tensor. -/
structure TensorReq where
  node_name : String
  slot : String
  iter : String
  truncate : Bool
deriving DecidableEq

/-- A tensor captured by the execution engine and held by the tensor loader:
raw payload bytes, element type and shape. -/
structure TensorCapture where
  data : List Nat
  dtype : Nat
  shape : List Int
deriving DecidableEq

/-- A `TensorProto` as sent back to the controller in reply to a `view`
command. -/
structure TensorChunk where
  node_name : String
  slot : String
  iter : String
  truncate : Bool
  finished : Bool
  tensor_content : List Nat
  data_type : Option Nat
  dims : List Int
deriving DecidableEq

/-! ## `GetTensorFullName` -/

/-- Index of the last occurrence of `c` in `l`
(C++ `std::string::find_last_of`, `none` for `npos`). -/
def findLastOfList : List Char → Char → Option Nat
  | [], _ => none
  | a :: as, c =>
    match findLastOfList as c with
    | some i => some (i + 1)
    | none => if a = c then some 0 else none

/-- `std::string::substr(i)`: the suffix of `s` starting at index `i`. -/
def substrFrom (s : String) (i : Nat) : String := ⟨s.data.drop i⟩

/-- `GetTensorFullName` (debugger.cc:724).  When no `/` occurs,
`find_last_of` yields `npos` and `substr(npos + 1)` is `substr(0)` (unsigned
wrap-around), i.e. the whole name; the `none` branch models that. -/
def getTensorFullName (tensor : TensorReq) : String :=
  let node_name :=
    if tensor.truncate then
      match findLastOfList tensor.node_name.data '/' with
      | some found => substrFrom tensor.node_name (found + 1)
      | none => tensor.node_name
    else tensor.node_name
  node_name ++ ":" ++ tensor.slot ++ (if tensor.iter = "" then "" else ":" ++ tensor.iter)

theorem findLastOfList_eq_none {c : Char} : ∀ {l : List Char}, c ∉ l → findLastOfList l c = none
  | [], _ => rfl
  | a :: as, h => by
    have ha : a ≠ c := fun e => h (by simp [e])
    have htl : c ∉ as := fun e => h (List.mem_cons_of_mem _ e)
    simp [findLastOfList, findLastOfList_eq_none htl, ha]

theorem findLastOfList_append {c : Char} {bs : List Char} (hb : c ∉ bs) :
    ∀ (as : List Char), findLastOfList (as ++ c :: bs) c = some as.length
  | [] => by simp [findLastOfList, findLastOfList_eq_none hb]
  | a :: as => by
    simp [findLastOfList, findLastOfList_append hb as]

theorem drop_append_cons (as bs : List Char) (c : Char) :
    (as ++ c :: bs).drop (as.length + 1) = bs := by
  have : as ++ c :: bs = (as ++ [c]) ++ bs := by simp
  rw [this]
  have hl : as.length + 1 = (as ++ [c]).length := by simp
  rw [hl, List.drop_left]

/-- C5: full-name resolution: the two concrete resolutions of
`("conv/bn/gamma", slot=0, iter="5")` from the spec, and in general a
truncated name is the part after the last scope separator while the
`:iteration` suffix appears exactly when the iteration string is non-empty. -/
theorem c5_get_tensor_full_name (a b n slot iter : String) (hb : '/' ∉ b.data) :
    getTensorFullName ⟨"conv/bn/gamma", "0", "5", true⟩ = "gamma:0:5" ∧
    getTensorFullName ⟨"conv/bn/gamma", "0", "5", false⟩ = "conv/bn/gamma:0:5" ∧
    getTensorFullName ⟨a ++ "/" ++ b, slot, iter, true⟩ =
      b ++ ":" ++ slot ++ (if iter = "" then "" else ":" ++ iter) ∧
    getTensorFullName ⟨n, slot, iter, false⟩ =
      n ++ ":" ++ slot ++ (if iter = "" then "" else ":" ++ iter) := by
  refine ⟨by decide, by decide, ?_, rfl⟩
  have hdata : (a ++ "/" ++ b).data = a.data ++ '/' :: b.data := by
    rw [String.data_append, String.data_append, List.append_assoc]; rfl
  have hfind : findLastOfList (a ++ "/" ++ b).data '/' = some a.data.length := by
    rw [hdata]; exact findLastOfList_append hb a.data
  have hsub : substrFrom (a ++ "/" ++ b) (a.length + 1) = b := by
    apply String.ext
    show (a ++ "/" ++ b).data.drop (a.data.length + 1) = b.data
    rw [hdata]; exact drop_append_cons a.data b.data '/'
  simp [getTensorFullName, hdata, findLastOfList_append hb a.data, hsub]

/-- Witness for C5 at the spec's concrete inputs. -/
theorem c5_witness :
    getTensorFullName ⟨"conv/bn" ++ "/" ++ "gamma", "0", "5", true⟩ =
      "gamma" ++ ":" ++ "0" ++ (if "5" = "" then "" else ":" ++ "5") :=
  (c5_get_tensor_full_name "conv/bn" "gamma" "x" "0" "5" (by decide)).2.2.1

/-! ## `LoadTensors`: serving a `view` command -/

/-- `#define CHUNK_SIZE 1024 * 1024 * 3` (debugger.cc:44). -/
def CHUNK_SIZE : Nat := 1024 * 1024 * 3

/-- `AddTensorProtoInfo` (debugger.cc:512) applied after `set_finished`:
copies the identifying metadata of the request and clears content, data type
and dims. -/
def addTensorProtoInfo (finished : Bool) (tensor : TensorReq) : TensorChunk :=
  { node_name := tensor.node_name
    slot := tensor.slot
    iter := tensor.iter
    truncate := tensor.truncate
    finished := finished
    tensor_content := []
    data_type := none
    dims := [] }

/-- The chunking loop of `Debugger::LoadTensors` (debugger.cc:559): while
bytes remain, emit a chunk of `min CHUNK_SIZE remaining` bytes, marking it
finished when the remainder fits into one chunk. -/
def loadTensorChunks (tensor : TensorReq) (cap : TensorCapture) (data : List Nat) :
    List TensorChunk :=
  if h : data = [] then []
  else
    let finished := data.length ≤ CHUNK_SIZE
    { addTensorProtoInfo finished tensor with
      tensor_content := data.take CHUNK_SIZE
      data_type := some cap.dtype
      dims := cap.shape } :: loadTensorChunks tensor cap (data.drop CHUNK_SIZE)
termination_by data.length
decreasing_by
  have hpos : 0 < data.length := List.length_pos.mpr h
  simp only [List.length_drop]
  have : 0 < CHUNK_SIZE := by decide
  omega

/-- The tensor snapshot cache (`TensorLoader` content), keyed by full tensor
name. -/
abbrev TensorCache := List (String × TensorCapture)

/-- Modelled from the spec: `DebugServices::ReadNodesTensors` is not part of
this excerpt; per the spec the cache exposes
`Lookup(name_list) -> matched_subset_in_request_order`, so the result holds,
in request order, exactly the requested names found in the cache together
with their captures. -/
def readNodesTensors (names : List String) (cache : TensorCache) :
    List (String × TensorCapture) :=
  names.filterMap fun nm => (cache.find? fun e => e.1 == nm).map fun e => (nm, e.2)

/-- The reply-assembly loop of `Debugger::LoadTensors` (debugger.cc:549):
walk the requests; when the next found entry matches the request's full
name, emit its chunks and advance, otherwise emit a single finished empty
placeholder. -/
def loadTensorsGo : List TensorReq → List (String × TensorCapture) → List TensorChunk
  | [], _ => []
  | t :: ts, [] => addTensorProtoInfo true t :: loadTensorsGo ts []
  | t :: ts, (nm, cap) :: rest =>
    if nm = getTensorFullName t then
      loadTensorChunks t cap cap.data ++ loadTensorsGo ts rest
    else
      addTensorProtoInfo true t :: loadTensorsGo ts ((nm, cap) :: rest)

/-- `Debugger::LoadTensors` (debugger.cc:533). -/
def loadTensors (cache : TensorCache) (tensors : List TensorReq) : List TensorChunk :=
  loadTensorsGo tensors (readNodesTensors (tensors.map getTensorFullName) cache)

theorem loadTensorChunks_nil (tensor : TensorReq) (cap : TensorCapture) :
    loadTensorChunks tensor cap [] = [] := by
  rw [loadTensorChunks]; rfl

theorem loadTensorChunks_cons (tensor : TensorReq) (cap : TensorCapture)
    {data : List Nat} (h : data ≠ []) :
    loadTensorChunks tensor cap data =
      { addTensorProtoInfo (data.length ≤ CHUNK_SIZE) tensor with
        tensor_content := data.take CHUNK_SIZE
        data_type := some cap.dtype
        dims := cap.shape } :: loadTensorChunks tensor cap (data.drop CHUNK_SIZE) := by
  rw [loadTensorChunks]
  simp [h]

/-- Concatenating the chunk contents in order reproduces the payload. -/
theorem loadTensorChunks_flatten (tensor : TensorReq) (cap : TensorCapture) :
    ∀ data : List Nat,
      ((loadTensorChunks tensor cap data).map TensorChunk.tensor_content).flatten = data := by
  intro data
  induction data using loadTensorChunks.induct tensor cap with
  | case1 => simp [loadTensorChunks_nil]
  | case2 data h ih =>
    rw [loadTensorChunks_cons tensor cap h]
    simp only [List.map_cons, List.flatten_cons, ih]
    exact List.take_append_drop _ _

/-- Every chunk carries at most `CHUNK_SIZE` bytes and the request's
metadata. -/
theorem loadTensorChunks_bound (tensor : TensorReq) (cap : TensorCapture) :
    ∀ data : List Nat, ∀ c ∈ loadTensorChunks tensor cap data,
      c.tensor_content.length ≤ CHUNK_SIZE ∧
      c.node_name = tensor.node_name ∧ c.slot = tensor.slot ∧
      c.iter = tensor.iter ∧ c.truncate = tensor.truncate := by
  intro data
  induction data using loadTensorChunks.induct tensor cap with
  | case1 => simp [loadTensorChunks_nil]
  | case2 data h ih =>
    rw [loadTensorChunks_cons tensor cap h]
    intro c hc
    rcases List.mem_cons.mp hc with hc | hc
    · subst hc
      refine ⟨?_, rfl, rfl, rfl, rfl⟩
      show (data.take CHUNK_SIZE).length ≤ CHUNK_SIZE
      rw [List.length_take]
      exact Nat.min_le_left _ _
    · exact ih c hc

/-- The finished flags are `false` everywhere except on the (existing) last
chunk. -/
theorem loadTensorChunks_finished (tensor : TensorReq) (cap : TensorCapture) :
    ∀ data : List Nat, data ≠ [] →
      (loadTensorChunks tensor cap data).map TensorChunk.finished =
        List.replicate ((loadTensorChunks tensor cap data).length - 1) false ++ [true] := by
  intro data
  induction data using loadTensorChunks.induct tensor cap with
  | case1 => intro h; exact absurd rfl h
  | case2 data h ih =>
    intro _
    rw [loadTensorChunks_cons tensor cap h]
    by_cases hle : data.length ≤ CHUNK_SIZE
    · have hdrop : data.drop CHUNK_SIZE = [] := List.drop_eq_nil_iff.mpr hle
      simp [hdrop, loadTensorChunks_nil, hle, addTensorProtoInfo]
    · have hdrop : data.drop CHUNK_SIZE ≠ [] := by
        intro e
        have := List.drop_eq_nil_iff.mp e
        omega
      have ihd := ih hdrop
      have hlen : 1 ≤ (loadTensorChunks tensor cap (data.drop CHUNK_SIZE)).length := by
        rw [loadTensorChunks_cons tensor cap hdrop]
        simp
      simp only [List.map_cons, ihd, List.length_cons]
      have hfin : ({ addTensorProtoInfo (decide (data.length ≤ CHUNK_SIZE)) tensor with
          tensor_content := data.take CHUNK_SIZE
          data_type := some cap.dtype
          dims := cap.shape } : TensorChunk).finished = false := by
        simp [addTensorProtoInfo, hle]
      rw [hfin]
      have harith : (loadTensorChunks tensor cap (data.drop CHUNK_SIZE)).length + 1 - 1 =
          ((loadTensorChunks tensor cap (data.drop CHUNK_SIZE)).length - 1) + 1 := by omega
      rw [harith, List.replicate_succ]
      simp

theorem loadTensorsGo_cons_nil (t : TensorReq) (ts : List TensorReq) :
    loadTensorsGo (t :: ts) [] = addTensorProtoInfo true t :: loadTensorsGo ts [] := rfl

theorem loadTensorsGo_cons_cons (t : TensorReq) (ts : List TensorReq) (nm : String)
    (cap : TensorCapture) (rest : List (String × TensorCapture)) :
    loadTensorsGo (t :: ts) ((nm, cap) :: rest) =
      if nm = getTensorFullName t then
        loadTensorChunks t cap cap.data ++ loadTensorsGo ts rest
      else
        addTensorProtoInfo true t :: loadTensorsGo ts ((nm, cap) :: rest) := rfl

theorem mem_readNodesTensors {names : List String} {cache : TensorCache}
    {nm : String} {cap : TensorCapture}
    (h : (nm, cap) ∈ readNodesTensors names cache) :
    ∃ e, cache.find? (fun x => x.1 == nm) = some e := by
  rcases List.mem_filterMap.mp h with ⟨a, _, ha⟩
  rcases hfe : cache.find? fun x => x.1 == a with _ | e
  · rw [hfe] at ha; simp at ha
  · rw [hfe] at ha
    have ha' : (a, e.2) = (nm, cap) := by simpa using ha
    have hanm : a = nm := congrArg Prod.fst ha'
    subst hanm
    exact ⟨e, hfe⟩

/-- `LoadTensors` answers the requests independently and in request order:
each found request contributes its chunk sequence, each unfound request
contributes exactly one finished empty placeholder. -/
theorem loadTensors_eq_flatMap (cache : TensorCache) :
    ∀ tensors : List TensorReq,
      loadTensors cache tensors =
        tensors.flatMap fun t =>
          match cache.find? fun x => x.1 == getTensorFullName t with
          | some e => loadTensorChunks t e.2 e.2.data
          | none => [addTensorProtoInfo true t]
  | [] => rfl
  | t :: ts => by
    have ih := loadTensors_eq_flatMap cache ts
    rcases hfind : cache.find? fun x => x.1 == getTensorFullName t with _ | e
    · have hr : readNodesTensors ((t :: ts).map getTensorFullName) cache =
          readNodesTensors (ts.map getTensorFullName) cache := by
        simp [readNodesTensors, hfind]
      have hgo : loadTensorsGo (t :: ts) (readNodesTensors (ts.map getTensorFullName) cache) =
          addTensorProtoInfo true t ::
            loadTensorsGo ts (readNodesTensors (ts.map getTensorFullName) cache) := by
        rcases hrest : readNodesTensors (ts.map getTensorFullName) cache with _ | ⟨⟨nm, cap⟩, rest⟩
        · rfl
        · have hne : nm ≠ getTensorFullName t := by
            intro he
            have hm : (nm, cap) ∈ readNodesTensors (ts.map getTensorFullName) cache := by
              rw [hrest]; exact List.mem_cons_self _ _
            rcases mem_readNodesTensors hm with ⟨e, hfe⟩
            rw [he] at hfe
            rw [hfe] at hfind
            exact Option.noConfusion hfind
          rw [loadTensorsGo_cons_cons, if_neg hne]
      rw [loadTensors, hr, hgo, List.flatMap_cons, hfind, ← loadTensors, ih]
      rfl
    · have hr : readNodesTensors ((t :: ts).map getTensorFullName) cache =
          (getTensorFullName t, e.2) :: readNodesTensors (ts.map getTensorFullName) cache := by
        simp [readNodesTensors, hfind]
      have hgo : loadTensorsGo (t :: ts)
            ((getTensorFullName t, e.2) :: readNodesTensors (ts.map getTensorFullName) cache) =
          loadTensorChunks t e.2 e.2.data ++
            loadTensorsGo ts (readNodesTensors (ts.map getTensorFullName) cache) := by
        rw [loadTensorsGo_cons_cons, if_pos rfl]
      rw [loadTensors, hr, hgo, List.flatMap_cons, hfind, ← loadTensors, ih]

/-- The request `("x", slot 0, no iteration)` used in concrete view
examples. -/
def reqX : TensorReq := { node_name := "x", slot := "0", iter := "", truncate := false }

/-- An empty (zero payload bytes) capture. -/
def capEmpty : TensorCapture := { data := [], dtype := 1, shape := [] }

/-- A one-byte capture. -/
def capOne : TensorCapture := { data := [5], dtype := 1, shape := [1] }

/-- C1 (counterexample): a zero-size tensor that IS found in the cache
produces no chunk at all — the `while` loop body never runs — instead of the
single `finished=true` chunk the claim requires. -/
theorem c1_counterexample : loadTensors [("x:0", capEmpty)] [reqX] = [] := by
  rw [loadTensors_eq_flatMap]
  have hfind : List.find? (fun x => x.1 == getTensorFullName reqX) [("x:0", capEmpty)] =
      some ("x:0", capEmpty) := by decide
  rw [List.flatMap_cons, hfind]
  show loadTensorChunks reqX capEmpty [] ++ _ = []
  rw [loadTensorChunks_nil]
  rfl

/-- C1 (amended): a found tensor with payload `S` is answered, in place,
by a run of chunks of at most `CHUNK_SIZE` bytes whose concatenation is
exactly the `S` payload bytes, with `finished=true` on the last chunk and
only the last; a found zero-size tensor contributes no chunk at all. -/
theorem c1_chunking (cache : TensorCache) (pre post : List TensorReq) (t : TensorReq)
    (e : String × TensorCapture)
    (hfind : cache.find? (fun x => x.1 == getTensorFullName t) = some e) :
    loadTensors cache (pre ++ t :: post) =
      loadTensors cache pre ++ loadTensorChunks t e.2 e.2.data ++ loadTensors cache post ∧
    ((loadTensorChunks t e.2 e.2.data).map TensorChunk.tensor_content).flatten = e.2.data ∧
    (∀ c ∈ loadTensorChunks t e.2 e.2.data,
      c.tensor_content.length ≤ CHUNK_SIZE ∧ c.node_name = t.node_name ∧
      c.slot = t.slot ∧ c.iter = t.iter ∧ c.truncate = t.truncate) ∧
    (e.2.data ≠ [] →
      (loadTensorChunks t e.2 e.2.data).map TensorChunk.finished =
        List.replicate ((loadTensorChunks t e.2 e.2.data).length - 1) false ++ [true]) ∧
    (e.2.data = [] → loadTensorChunks t e.2 e.2.data = []) := by
  refine ⟨?_, loadTensorChunks_flatten t e.2 e.2.data, loadTensorChunks_bound t e.2 e.2.data,
    loadTensorChunks_finished t e.2 e.2.data, ?_⟩
  · rw [loadTensors_eq_flatMap, List.flatMap_append, List.flatMap_cons, hfind,
      ← loadTensors_eq_flatMap, ← loadTensors_eq_flatMap, List.append_assoc]
  · intro hnil
    rw [hnil]
    exact loadTensorChunks_nil t e.2

/-- Witness for C1 (amended) on a one-byte tensor found in a one-entry
cache. -/
theorem c1_chunking_witness :
    loadTensors [("x:0", capOne)] ([] ++ reqX :: []) =
      loadTensors [("x:0", capOne)] [] ++
        loadTensorChunks reqX ("x:0", capOne).2 ("x:0", capOne).2.data ++
        loadTensors [("x:0", capOne)] [] :=
  (c1_chunking [("x:0", capOne)] [] [] reqX ("x:0", capOne) (by decide)).1

/-- C6: a requested tensor whose full name is not in the cache is answered,
in place, by exactly one placeholder carrying `finished=true` and the
request's metadata, with content, data type and dims cleared; the other
requests are resolved in request order around it. -/
theorem c6_not_found_placeholder (cache : TensorCache) (pre post : List TensorReq)
    (t : TensorReq)
    (hfind : cache.find? (fun x => x.1 == getTensorFullName t) = none) :
    loadTensors cache (pre ++ t :: post) =
      loadTensors cache pre ++ addTensorProtoInfo true t :: loadTensors cache post ∧
    (addTensorProtoInfo true t).finished = true ∧
    (addTensorProtoInfo true t).node_name = t.node_name ∧
    (addTensorProtoInfo true t).slot = t.slot ∧
    (addTensorProtoInfo true t).iter = t.iter ∧
    (addTensorProtoInfo true t).truncate = t.truncate ∧
    (addTensorProtoInfo true t).tensor_content = [] ∧
    (addTensorProtoInfo true t).data_type = none ∧
    (addTensorProtoInfo true t).dims = [] := by
  refine ⟨?_, rfl, rfl, rfl, rfl, rfl, rfl, rfl, rfl⟩
  rw [loadTensors_eq_flatMap, List.flatMap_append, List.flatMap_cons, hfind,
    ← loadTensors_eq_flatMap, ← loadTensors_eq_flatMap]
  rfl

/-- Witness for C6: an empty cache answers a single request with one
placeholder. -/
theorem c6_not_found_placeholder_witness :
    loadTensors [] ([] ++ reqX :: []) =
      loadTensors [] [] ++ addTensorProtoInfo true reqX :: loadTensors [] [] :=
  (c6_not_found_placeholder [] [] [] reqX (by decide)).1

/-! ## Debugger session state -/

/-- The graph handed to `PreExecute`: its id and the `AnfAlgo::GetCNodeName`
names of the execution-order nodes. -/
structure KernelGraph where
  graph_id : Nat
  execution_order : List String
deriving DecidableEq

/-- The member state of class `Debugger` (debugger.cc:51).  `mem_reuse`
models the C++ field for partial memory reuse; `debug_services` records
whether the watch store exists; `grpc_client` holds `(host, port)` when the
client was constructed. -/
structure DebuggerState where
  device_id : Nat
  device_target : String
  num_step : Int
  debugger_enabled : Bool
  run_level : String
  node_name : String
  cur_name : String
  training_done : Bool
  is_dataset_graph : Bool
  mem_reuse : Bool
  last_overflow_bin : ℚ
  overflow_bin_path : String
  graph_ptr : Option KernelGraph
  grpc_client : Option (String × String)
  debug_services : Bool
  stream_task_to_opname : List ((Nat × Nat) × String)
deriving DecidableEq

/-- The GPU device constant `kGPUDevice`. -/
def kGPUDevice : String := "GPU"

/-- The external inputs read by `EnableDebugger` (debugger.cc:77):
the environment variables and the GPU runtime dump flag. -/
structure DebuggerEnv where
  dump_data_enabled : Bool
  enable_str : Option String
  host_str : Option String
  port_str : Option String
  mem_reuse_str : Option String
deriving DecidableEq

/-- A digit per the C++ comparisons `'0' <= c && c <= '9'`. -/
def isDig (c : Char) : Bool := '0' ≤ c && c ≤ '9'

/-- Octet alternation `25[0-5]|2[0-4][0-9]|1[0-9][0-9]|[1-9][0-9]|[0-9]`
used for the two middle octets of `reg_ip` (debugger.cc:102). -/
def matchOctetMid : List Char → Bool
  | [c] => isDig c
  | [c1, c2] => ('1' ≤ c1 && c1 ≤ '9') && isDig c2
  | [c0, c1, c2] =>
    (c0 == '2' && c1 == '5' && ('0' ≤ c2 && c2 ≤ '5')) ||
    (c0 == '2' && ('0' ≤ c1 && c1 ≤ '4') && isDig c2) ||
    (c0 == '1' && isDig c1 && isDig c2)
  | _ => false

/-- Octet alternation `25[0-4]|2[0-4][0-9]|1[0-9][0-9]|[1-9][0-9]|[1-9]`
used for the first and last octets of `reg_ip` (debugger.cc:102). -/
def matchOctetEdge : List Char → Bool
  | [c] => '1' ≤ c && c ≤ '9'
  | [c1, c2] => ('1' ≤ c1 && c1 ≤ '9') && isDig c2
  | [c0, c1, c2] =>
    (c0 == '2' && c1 == '5' && ('0' ≤ c2 && c2 ≤ '4')) ||
    (c0 == '2' && ('0' ≤ c1 && c1 ≤ '4') && isDig c2) ||
    (c0 == '1' && isDig c1 && isDig c2)
  | _ => false

/-- Split a character list on a separator; `n` separators yield `n + 1`
groups (the splitting view of the anchored `O[.]O[.]O[.]O` regex shape). -/
def splitOnChar (sep : Char) : List Char → List (List Char)
  | [] => [[]]
  | c :: cs =>
    match splitOnChar sep cs with
    | [] => if c = sep then [[], []] else [[c]]
    | g :: gs => if c = sep then [] :: g :: gs else (c :: g) :: gs

/-- `std::regex_match(host, reg_ip)` for the anchored pattern of
debugger.cc:102: exactly four dot-separated components, the octet classes
containing no dot. -/
def regexMatchIp (s : String) : Bool :=
  match splitOnChar '.' s.data with
  | [a, b, c, d] =>
    matchOctetEdge a && matchOctetMid b && matchOctetMid c && matchOctetEdge d
  | _ => false

/-- Numeric value of a digit string (the accumulation both `CheckPort` and
the spec-side definitions perform). -/
def digitsVal (l : List Char) : Int :=
  l.foldl (fun acc c => acc * 10 + ((c.toNat : Int) - 48)) 0

/-- The scanning loop of `Debugger::CheckPort` (debugger.cc:833): reject a
non-digit, accumulate `num = num * 10 + (*p - '0')` in a C++ `int`, reject
when the running value leaves `[1, 65535]`. -/
def checkPortLoop : List Char → Int → Bool
  | [], _ => true
  | c :: cs, num =>
    if c < '0' || '9' < c then false
    else
      let num := num * 10 + ((c.toNat : Int) - 48)
      if num < 1 || 65535 < num then false
      else checkPortLoop cs num

/-- `Debugger::CheckPort` (debugger.cc:829): an initial `'0'` followed by at
least one further character is rejected up front
(`*p == '0' && *(p + 1) != '\0'`), then the scanning loop runs from 0. -/
def checkPort (p : String) : Bool :=
  match p.data with
  | [] => checkPortLoop [] 0
  | [c] => checkPortLoop [c] 0
  | c :: c2 :: cs => if c = '0' then false else checkPortLoop (c :: c2 :: cs) 0

/-- Modelled from the spec (amended by the counterexample): a port string is
accepted exactly when it is empty or is the decimal representation, without
leading zeros, of an integer from 1 to 65535. -/
def isValidPortSpec (p : String) : Bool :=
  match p.data with
  | [] => true
  | c :: cs =>
    (c != '0') && isDig c && cs.all isDig &&
      decide (1 ≤ digitsVal (c :: cs)) && decide (digitsVal (c :: cs) ≤ 65535)

/-- A well-formed dotted-quad component: a non-empty digit string denoting
a value in `[0, 255]`. -/
def specOctet (l : List Char) : Bool :=
  !l.isEmpty && l.all isDig && decide (0 ≤ digitsVal l) && decide (digitsVal l ≤ 255)

/-- Modelled from the spec: a well-formed IPv4 dotted quad — four
dot-separated components, each a digit string denoting a value in
`[0, 255]`. -/
def specWellFormedIPv4 (s : String) : Bool :=
  match splitOnChar '.' s.data with
  | [a, b, c, d] => specOctet a && specOctet b && specOctet c && specOctet d
  | _ => false

/-- The `Debugger::Debugger()` constructor state (debugger.cc:51): every
field zero / empty / null. -/
def initDebugger : DebuggerState :=
  { device_id := 0
    device_target := ""
    num_step := 0
    debugger_enabled := false
    run_level := ""
    node_name := ""
    cur_name := ""
    training_done := false
    is_dataset_graph := false
    mem_reuse := false
    last_overflow_bin := 0
    overflow_bin_path := ""
    graph_ptr := none
    grpc_client := none
    debug_services := false
    stream_task_to_opname := [] }

/-- `Debugger::Reset` (debugger.cc:218). -/
def reset (s : DebuggerState) : DebuggerState :=
  { s with
    device_id := 0
    device_target := ""
    num_step := 0
    debugger_enabled := false
    is_dataset_graph := false
    mem_reuse := false
    graph_ptr := none
    grpc_client := none
    debug_services := false
    last_overflow_bin := 0
    overflow_bin_path := ""
    stream_task_to_opname := [] }

theorem isDig_bounds {c : Char} (h : isDig c = true) : 48 ≤ c.toNat ∧ c.toNat ≤ 57 := by
  simp only [isDig, Bool.and_eq_true, decide_eq_true_eq] at h
  exact h

/-- The digit-accumulation fold started from an arbitrary value. -/
def digitsValFrom (num : Int) (l : List Char) : Int :=
  l.foldl (fun acc c => acc * 10 + ((c.toNat : Int) - 48)) num

theorem digitsValFrom_cons (num : Int) (c : Char) (cs : List Char) :
    digitsValFrom num (c :: cs) = digitsValFrom (num * 10 + ((c.toNat : Int) - 48)) cs := rfl

theorem digitsVal_eq_from (l : List Char) : digitsVal l = digitsValFrom 0 l := rfl

theorem digitsValFrom_ge :
    ∀ {l : List Char} {num : Int}, 0 ≤ num → l.all isDig = true → num ≤ digitsValFrom num l
  | [], num, _, _ => le_refl num
  | c :: cs, num, h0, hd => by
    rw [List.all_cons, Bool.and_eq_true] at hd
    obtain ⟨hb, _⟩ := isDig_bounds hd.1
    have hstep : num ≤ num * 10 + ((c.toNat : Int) - 48) := by omega
    have h0' : (0 : Int) ≤ num * 10 + ((c.toNat : Int) - 48) := by omega
    rw [digitsValFrom_cons]
    exact le_trans hstep (digitsValFrom_ge h0' hd.2)

theorem cond_of_isDig {c : Char} (h : isDig c = true) : (c < '0' || '9' < c) = false := by
  simp only [isDig, Bool.and_eq_true, decide_eq_true_eq] at h
  simp only [Bool.or_eq_false_iff, decide_eq_false_iff_not, Char.not_lt]
  exact ⟨h.1, h.2⟩

theorem cond_of_not_isDig {c : Char} (h : isDig c = false) : (c < '0' || '9' < c) = true := by
  by_cases h0 : '0' ≤ c
  · by_cases h9 : c ≤ '9'
    · exfalso
      have hdig : isDig c = true := by simp [isDig, h0, h9]
      rw [hdig] at h
      exact Bool.noConfusion h
    · simp [lt_of_not_le h9]
  · simp [lt_of_not_le h0]

theorem checkPortLoop_eq :
    ∀ (l : List Char) (num : Int), 1 ≤ num → num ≤ 65535 →
      checkPortLoop l num = (l.all isDig && decide (digitsValFrom num l ≤ 65535))
  | [], num, _, h2 => by
    simp [checkPortLoop, digitsValFrom, h2]
  | c :: cs, num, h1, h2 => by
    rw [checkPortLoop]
    by_cases hd : isDig c = true
    · obtain ⟨hb1, hb2⟩ := isDig_bounds hd
      have hcond : (c < '0' || '9' < c) = false := by
        simp only [isDig, Bool.and_eq_true, decide_eq_true_eq] at hd
        simp only [Bool.or_eq_false_iff, decide_eq_false_iff_not, Char.not_lt]
        exact ⟨hd.1, hd.2⟩
      rw [hcond]
      simp only [Bool.false_eq_true, if_false]
      set num' := num * 10 + ((c.toNat : Int) - 48) with hnum'
      have hge1 : ¬ (num' < 1) := by omega
      by_cases hbig : 65535 < num'
      · have hcond2 : (num' < 1 || 65535 < num') = true := by
          simp [hbig]
        rw [hcond2]
        simp only [if_true]
        by_cases hall : cs.all isDig = true
        · have : digitsValFrom num (c :: cs) = digitsValFrom num' cs := rfl
          have hmono : num' ≤ digitsValFrom num' cs := digitsValFrom_ge (by omega) hall
          have : ¬ (digitsValFrom num (c :: cs) ≤ 65535) := by
            rw [digitsValFrom_cons, ← hnum']
            omega
          simp [this]
        · rw [Bool.not_eq_true] at hall
          simp [hall]
      · have hcond2 : (num' < 1 || 65535 < num') = false := by
          simp only [Bool.or_eq_false_iff, decide_eq_false_iff_not]
          exact ⟨hge1, hbig⟩
        rw [hcond2]
        simp only [Bool.false_eq_true, if_false]
        rw [checkPortLoop_eq cs num' (by omega) (by omega)]
        rw [List.all_cons, hd, Bool.true_and, digitsValFrom_cons, ← hnum']
    · rw [Bool.not_eq_true] at hd
      rw [cond_of_not_isDig hd]
      simp only [if_true]
      simp [hd]

theorem digitsVal_cons (c : Char) (l : List Char) :
    digitsVal (c :: l) = digitsValFrom ((c.toNat : Int) - 48) l := by
  rw [digitsVal_eq_from, digitsValFrom_cons]
  norm_num

theorem checkPortLoop_start (c : Char) (cs : List Char) (hd : isDig c = true)
    (hc0 : c ≠ '0') :
    checkPortLoop (c :: cs) 0 =
      (cs.all isDig && decide (digitsValFrom ((c.toNat : Int) - 48) cs ≤ 65535)) := by
  obtain ⟨hb1, hb2⟩ := isDig_bounds hd
  have h0lt : '0' < c := lt_of_le_of_ne (by
      simp only [isDig, Bool.and_eq_true, decide_eq_true_eq] at hd
      exact hd.1) (Ne.symm hc0)
  have hgt : 48 < c.toNat := h0lt
  rw [checkPortLoop, cond_of_isDig hd]
  simp only [Bool.false_eq_true, if_false]
  have hz : (0 : Int) * 10 + ((c.toNat : Int) - 48) = (c.toNat : Int) - 48 := by ring
  rw [hz]
  have hcond2 : (((c.toNat : Int) - 48) < 1 || (65535 : Int) < ((c.toNat : Int) - 48)) = false := by
    simp only [Bool.or_eq_false_iff, decide_eq_false_iff_not, not_lt]
    omega
  rw [hcond2]
  simp only [Bool.false_eq_true, if_false]
  exact checkPortLoop_eq cs _ (by omega) (by omega)

theorem checkPort_head (c : Char) (cs : List Char) (hd : isDig c = true) (hc0 : c ≠ '0') :
    checkPort ⟨c :: cs⟩ = isValidPortSpec ⟨c :: cs⟩ := by
  have hloop : checkPort ⟨c :: cs⟩ = checkPortLoop (c :: cs) 0 := by
    rcases cs with _ | ⟨c2, cs'⟩
    · rfl
    · show (if c = '0' then false else checkPortLoop (c :: c2 :: cs') 0) = _
      rw [if_neg hc0]
  rw [hloop, checkPortLoop_start c cs hd hc0]
  obtain ⟨hb1, hb2⟩ := isDig_bounds hd
  have h0lt : '0' < c := lt_of_le_of_ne (by
      simp only [isDig, Bool.and_eq_true, decide_eq_true_eq] at hd
      exact hd.1) (Ne.symm hc0)
  have hgt : 48 < c.toNat := h0lt
  show _ = isValidPortSpec ⟨c :: cs⟩
  simp only [isValidPortSpec]
  have hbne : (c != '0') = true := by simp [hc0]
  rw [hbne, hd, digitsVal_cons]
  by_cases hall : cs.all isDig = true
  · have h1 : (1 : Int) ≤ digitsValFrom ((c.toNat : Int) - 48) cs :=
      le_trans (by omega) (digitsValFrom_ge (by omega) hall)
    simp [hall, h1]
  · rw [Bool.not_eq_true] at hall
    simp [hall]

/-- `CheckPort` accepts exactly the empty string and the no-leading-zero
decimal representations of `1..65535`. -/
theorem checkPort_eq_spec (p : String) : checkPort p = isValidPortSpec p := by
  obtain ⟨l⟩ := p
  rcases l with _ | ⟨c, cs⟩
  · rfl
  by_cases hc0 : c = '0'
  · subst hc0
    rcases cs with _ | ⟨c2, cs'⟩
    · decide
    · rfl
  by_cases hd : isDig c = true
  · exact checkPort_head c cs hd hc0
  · rw [Bool.not_eq_true] at hd
    have hloop : checkPort ⟨c :: cs⟩ = checkPortLoop (c :: cs) 0 := by
      rcases cs with _ | ⟨c2, cs'⟩
      · rfl
      · show (if c = '0' then false else checkPortLoop (c :: c2 :: cs') 0) = _
        rw [if_neg hc0]
    rw [hloop, checkPortLoop, cond_of_not_isDig hd]
    simp only [if_true]
    show false = isValidPortSpec ⟨c :: cs⟩
    simp only [isValidPortSpec]
    simp [hd]

/-- The first/last octet class is contained in the middle octet class. -/
theorem matchOctetMid_of_edge :
    ∀ {l : List Char}, matchOctetEdge l = true → matchOctetMid l = true
  | [c], h => by
    simp only [matchOctetEdge, Bool.and_eq_true, decide_eq_true_eq] at h
    simp only [matchOctetMid, isDig, Bool.and_eq_true, decide_eq_true_eq]
    exact ⟨le_trans (by decide) h.1, h.2⟩
  | [c0, c1], h => h
  | [c0, c1, c2], h => by
    simp only [matchOctetEdge, Bool.or_eq_true, Bool.and_eq_true, beq_iff_eq,
      decide_eq_true_eq] at h
    simp only [matchOctetMid, Bool.or_eq_true, Bool.and_eq_true, beq_iff_eq,
      decide_eq_true_eq]
    rcases h with (⟨⟨h0, h1⟩, h2, h3⟩ | h) | h
    · exact Or.inl (Or.inl ⟨⟨h0, h1⟩, h2, le_trans h3 (by decide)⟩)
    · exact Or.inl (Or.inr h)
    · exact Or.inr h

theorem matchOctetMid_spec :
    ∀ {l : List Char}, matchOctetMid l = true →
      l ≠ [] ∧ l.all isDig = true ∧ 0 ≤ digitsVal l ∧ digitsVal l ≤ 255
  | [c], h => by
    have hd : isDig c = true := h
    obtain ⟨hb1, hb2⟩ := isDig_bounds hd
    refine ⟨by simp, by simp [hd], ?_, ?_⟩ <;>
      · simp only [digitsVal, digitsValFrom, List.foldl_cons, List.foldl_nil]
        omega
  | [c0, c1], h => by
    simp only [matchOctetMid, Bool.and_eq_true, decide_eq_true_eq] at h
    obtain ⟨⟨h1, h2⟩, hd1⟩ := h
    have hd0 : isDig c0 = true := by
      simp only [isDig, Bool.and_eq_true, decide_eq_true_eq]
      exact ⟨le_trans (by decide) h1, h2⟩
    obtain ⟨ha1, ha2⟩ := isDig_bounds hd0
    obtain ⟨hb1, hb2⟩ := isDig_bounds hd1
    refine ⟨by simp, by simp [hd0, hd1], ?_, ?_⟩ <;>
      · simp only [digitsVal, digitsValFrom, List.foldl_cons, List.foldl_nil]
        omega
  | [c0, c1, c2], h => by
    simp only [matchOctetMid, Bool.or_eq_true, Bool.and_eq_true, beq_iff_eq,
      decide_eq_true_eq] at h
    have h2 : ('2' : Char).toNat = 50 := rfl
    have h5 : ('5' : Char).toNat = 53 := rfl
    have h1n : ('1' : Char).toNat = 49 := rfl
    have d1dig : isDig '1' = true := by decide
    have d2dig : isDig '2' = true := by decide
    have d5dig : isDig '5' = true := by decide
    rcases h with (⟨⟨hc0, hc1⟩, hg, hl⟩ | ⟨⟨hc0, hg, hl⟩, hd2⟩) | ⟨⟨hc0, hd1⟩, hd2⟩
    · subst hc0; subst hc1
      have hg' : 48 ≤ c2.toNat := hg
      have hl' : c2.toNat ≤ 53 := hl
      have hd2 : isDig c2 = true := by
        simp only [isDig, Bool.and_eq_true, decide_eq_true_eq]
        exact ⟨hg, le_trans hl (by decide)⟩
      refine ⟨by simp, by simp [hd2, d2dig, d5dig], ?_, ?_⟩ <;>
        · simp only [digitsVal, digitsValFrom, List.foldl_cons, List.foldl_nil, h2, h5]
          omega
    · subst hc0
      have hg' : 48 ≤ c1.toNat := hg
      have hl' : c1.toNat ≤ 52 := hl
      obtain ⟨hb1, hb2⟩ := isDig_bounds hd2
      have hd1 : isDig c1 = true := by
        simp only [isDig, Bool.and_eq_true, decide_eq_true_eq]
        exact ⟨hg, le_trans hl (by decide)⟩
      refine ⟨by simp, by simp [hd1, hd2, d2dig], ?_, ?_⟩ <;>
        · simp only [digitsVal, digitsValFrom, List.foldl_cons, List.foldl_nil, h2]
          omega
    · subst hc0
      obtain ⟨ha1, ha2⟩ := isDig_bounds hd1
      obtain ⟨hb1, hb2⟩ := isDig_bounds hd2
      refine ⟨by simp, by simp [hd1, hd2, d1dig], ?_, ?_⟩ <;>
        · simp only [digitsVal, digitsValFrom, List.foldl_cons, List.foldl_nil, h1n]
          omega

theorem specOctet_of_parts {l : List Char} (h1 : l ≠ []) (h2 : l.all isDig = true)
    (h3 : 0 ≤ digitsVal l) (h4 : digitsVal l ≤ 255) : specOctet l = true := by
  rcases l with _ | ⟨x, xs⟩
  · exact absurd rfl h1
  · simp [specOctet, h2, h3, h4, List.isEmpty]

/-- Every address accepted by the C++ regex is a well-formed IPv4 dotted
quad; contrapositively a malformed address is always rejected. -/
theorem specWellFormedIPv4_of_regex {s : String} (h : regexMatchIp s = true) :
    specWellFormedIPv4 s = true := by
  unfold regexMatchIp at h
  unfold specWellFormedIPv4
  rcases hsp : splitOnChar '.' s.data with _ | ⟨a, _ | ⟨b, _ | ⟨c, _ | ⟨d, _ | _⟩⟩⟩⟩ <;>
    rw [hsp] at h <;> first
  | exact Bool.noConfusion h
  | · simp only [Bool.and_eq_true] at h
      obtain ⟨⟨⟨ha, hb⟩, hc⟩, hd⟩ := h
      obtain ⟨ha1, ha2, ha3, ha4⟩ := matchOctetMid_spec (matchOctetMid_of_edge ha)
      obtain ⟨hb1, hb2, hb3, hb4⟩ := matchOctetMid_spec hb
      obtain ⟨hc1, hc2, hc3, hc4⟩ := matchOctetMid_spec hc
      obtain ⟨hd1, hd2, hd3, hd4⟩ := matchOctetMid_spec (matchOctetMid_of_edge hd)
      simp [specOctet_of_parts ha1 ha2 ha3 ha4, specOctet_of_parts hb1 hb2 hb3 hb4,
        specOctet_of_parts hc1 hc2 hc3 hc4, specOctet_of_parts hd1 hd2 hd3 hd4]

/-- `Debugger::CheckDebuggerEnabled` (debugger.cc:205): the environment
variable `ENABLE_MS_DEBUGGER` equals `"1"`. -/
def checkDebuggerEnabled (env : DebuggerEnv) : Bool :=
  match env.enable_str with
  | some v => v == "1"
  | none => false

/-- `Debugger::CheckDebuggerDumpEnabled` (debugger.cc:195): on GPU, the
runtime's dump flag; otherwise false. -/
def checkDebuggerDumpEnabled (s : DebuggerState) (env : DebuggerEnv) : Bool :=
  if s.device_target = kGPUDevice then env.dump_data_enabled else false

/-- `Debugger::DebuggerBackendEnabled` (debugger.cc:216). -/
def debuggerBackendEnabled (s : DebuggerState) (env : DebuggerEnv) : Bool :=
  checkDebuggerDumpEnabled s env || checkDebuggerEnabled env

/-- `Debugger::EnableDebugger` (debugger.cc:77), without the `ENABLE_D`
overflow-path scan: reset the transient members, read the enable/dump
signals, return early if neither is set, validate host and port (each
failure only clears `debugger_enabled_`), record memory reuse, construct
the gRPC client only when still enabled, and always construct the debug
services.  The function is total: no configuration value aborts it. -/
def enableDebugger (s : DebuggerState) (env : DebuggerEnv) : DebuggerState :=
  let s0 := { s with num_step := 0, debugger_enabled := false, mem_reuse := false,
                     grpc_client := none, debug_services := false }
  let dump_enabled := checkDebuggerDumpEnabled s0 env
  let s1 := { s0 with debugger_enabled := checkDebuggerEnabled env }
  if !s1.debugger_enabled && !dump_enabled then s1
  else
    let hostRes : String × DebuggerState :=
      match env.host_str with
      | some h =>
        if regexMatchIp h then (h, s1) else ("", { s1 with debugger_enabled := false })
      | none => ("localhost", s1)
    let portRes : String × DebuggerState :=
      match env.port_str with
      | some p =>
        if checkPort p then (p, hostRes.2)
        else ("", { hostRes.2 with debugger_enabled := false })
      | none => ("50051", hostRes.2)
    let s4 := { portRes.2 with mem_reuse := env.mem_reuse_str == some "1" }
    let s5 := if s4.debugger_enabled then
        { s4 with grpc_client := some (hostRes.1, portRes.1) }
      else s4
  { s5 with debug_services := true }

theorem enableDebugger_host_bad (s : DebuggerState) (env : DebuggerEnv) (h : String)
    (hh : env.host_str = some h) (hreg : regexMatchIp h = false) :
    (enableDebugger s env).debugger_enabled = false ∧
    (enableDebugger s env).grpc_client = none := by
  simp only [enableDebugger]
  split
  · rename_i hcond
    simp only [Bool.and_eq_true, Bool.not_eq_true'] at hcond
    exact ⟨hcond.1, rfl⟩
  · simp only [hh, hreg]
    rcases hp : env.port_str with _ | q
    · simp
    · by_cases hcp : checkPort q = true
      · simp [hcp]
      · rw [Bool.not_eq_true] at hcp
        simp [hcp]

theorem enableDebugger_port_bad (s : DebuggerState) (env : DebuggerEnv) (q : String)
    (hp : env.port_str = some q) (hcp : checkPort q = false) :
    (enableDebugger s env).debugger_enabled = false ∧
    (enableDebugger s env).grpc_client = none := by
  simp only [enableDebugger]
  split
  · rename_i hcond
    simp only [Bool.and_eq_true, Bool.not_eq_true'] at hcond
    exact ⟨hcond.1, rfl⟩
  · simp only [hp, hcp]
    rcases hh : env.host_str with _ | h
    · simp
    · by_cases hr : regexMatchIp h = true
      · simp [hr]
      · rw [Bool.not_eq_true] at hr
        simp [hr]

/-- An environment whose port variable is set to the empty string. -/
def envEmptyPort : DebuggerEnv :=
  { dump_data_enabled := false
    enable_str := some "1"
    host_str := none
    port_str := some ""
    mem_reuse_str := none }

/-- An environment whose host variable is not a well-formed IPv4 address. -/
def envBadHost : DebuggerEnv :=
  { dump_data_enabled := false
    enable_str := some "1"
    host_str := some "999.0.0.1"
    port_str := none
    mem_reuse_str := none }

/-- C7 (counterexample): `CheckPort` accepts the empty string, which is not
the decimal representation of any integer in `[1, 65535]`, and with
`MS_DEBUGGER_PORT=""` remote debugging stays enabled and a gRPC client is
constructed with an empty port. -/
theorem c7_counterexample :
    checkPort "" = true ∧
    (enableDebugger initDebugger envEmptyPort).debugger_enabled = true ∧
    (enableDebugger initDebugger envEmptyPort).grpc_client = some ("localhost", "") := by
  decide

/-- C7 (amended): a port string is accepted exactly when it is empty or the
no-leading-zero decimal representation of an integer in `[1, 65535]`; a
malformed (not well-formed IPv4) host or a rejected port leaves
`debugger_enabled_` false and no gRPC client constructed, and
`EnableDebugger` runs to completion (it is a total function with no exit
path). -/
theorem c7_enable_bad_config (s : DebuggerState) (env : DebuggerEnv) (p : String)
    (hbad : (∃ h, env.host_str = some h ∧ specWellFormedIPv4 h = false) ∨
            (∃ q, env.port_str = some q ∧ isValidPortSpec q = false)) :
    checkPort p = isValidPortSpec p ∧
    (enableDebugger s env).debugger_enabled = false ∧
    (enableDebugger s env).grpc_client = none := by
  refine ⟨checkPort_eq_spec p, ?_⟩
  rcases hbad with ⟨h, hh, hspec⟩ | ⟨q, hq, hqspec⟩
  · have hreg : regexMatchIp h = false := by
      by_cases hr : regexMatchIp h = true
      · rw [specWellFormedIPv4_of_regex hr] at hspec
        exact Bool.noConfusion hspec
      · exact Bool.not_eq_true _ |>.mp hr
    exact enableDebugger_host_bad s env h hh hreg
  · have hcp : checkPort q = false := by rw [checkPort_eq_spec]; exact hqspec
    exact enableDebugger_port_bad s env q hq hcp

/-- Witness for C7 (amended) at a malformed host `999.0.0.1`. -/
theorem c7_enable_bad_config_witness :
    checkPort "80" = isValidPortSpec "80" ∧
    (enableDebugger initDebugger envBadHost).debugger_enabled = false ∧
    (enableDebugger initDebugger envBadHost).grpc_client = none :=
  c7_enable_bad_config initDebugger envBadHost "80" (Or.inl ⟨"999.0.0.1", rfl, by decide⟩)

/-- C10: `Reset` returns every component named in the claim to its
constructor value while leaving the run-level, the target node name, the
current node name and the training-done flag exactly as they were. -/
theorem c10_reset_frame (s : DebuggerState) :
    reset s =
      { initDebugger with
        run_level := s.run_level
        node_name := s.node_name
        cur_name := s.cur_name
        training_done := s.training_done } := rfl

/-! ## Externally visible effects and the command loop -/

/-- Externally visible effects of the session: gRPC sends, sleeps, resource
release and process exit, watch-store mutations, and the instrumentation
events of entering the command loop / evaluating watchpoints. -/
inductive DebugAction where
  | sendMetadata
  | sendGraph
  | sleep (ms : Nat)
  | clearRes
  | exitProcess
  | setWatchpoint (id : Int)
  | removeWatchpoint (id : Int)
  | sendTensors
  | checkWatchpointsFull
  | sendWatchpointHits
  | enterCommandLoop
deriving DecidableEq

/-- One `WaitForCommand` outcome as seen by `CommandLoop`: a non-OK status,
or an OK reply carrying one of the command variants (`kUnknownCMD` for an
unrecognized variant). -/
inductive EventReplyM where
  | fail
  | unknown
  | exitCmd
  | runCmd (run_level node_name : String)
  | setCmd (delete : Bool) (id : Int)
  | viewCmd
deriving DecidableEq

/-- `Debugger::CommandLoop` (debugger.cc:388) driven by a script of
`WaitForCommand` outcomes, carrying the consecutive-failure counter
`num_wait_fail` (`max_num_wait_fail = 5`).  Returns the state when the loop
is left, the emitted action trace, and whether the process was terminated
(`Exit`, debugger.cc:585: release resources then `std::exit`).  An exhausted
script models a loop still blocked in `WaitForCommand`. -/
def commandLoopGo (s : DebuggerState) (num_wait_fail : Nat) :
    List EventReplyM → DebuggerState × List DebugAction × Bool
  | [] => (s, [], false)
  | r :: rs =>
    match r with
    | .fail =>
      let n := num_wait_fail + 1
      if n > 5 then (s, [.clearRes, .exitProcess], true)
      else
        let rec' := commandLoopGo s n rs
        (rec'.1, .sleep (1000 * n) :: rec'.2.1, rec'.2.2)
    | .unknown => commandLoopGo s num_wait_fail rs
    | .exitCmd => (s, [.clearRes, .exitProcess], true)
    | .runCmd lvl node => ({ s with run_level := lvl, node_name := node }, [], false)
    | .setCmd del id =>
      let rec' := commandLoopGo s num_wait_fail rs
      (rec'.1, (if del then DebugAction.removeWatchpoint id else DebugAction.setWatchpoint id)
        :: rec'.2.1, rec'.2.2)
    | .viewCmd =>
      let rec' := commandLoopGo s num_wait_fail rs
      (rec'.1, .sendTensors :: rec'.2.1, rec'.2.2)

/-- `CommandLoop` starts with `num_wait_fail = 0`. -/
def commandLoop (s : DebuggerState) (replies : List EventReplyM) :
    DebuggerState × List DebugAction × Bool :=
  commandLoopGo s 0 replies

/-- C2 (counterexample): the failure counter is cumulative for the whole
loop, not per run of consecutive failures: after one failure, one
recognized command (`unknown` keeps looping) and a second failure, the
second run of consecutive failures (of length 1) backs off 2 s, not 1 s. -/
theorem c2_counterexample :
    commandLoop initDebugger [.fail, .unknown, .fail, .runCmd "" ""] =
      (initDebugger, [.sleep 1000, .sleep 2000], false) ∧
    [DebugAction.sleep 1000, .sleep 2000] ≠ [.sleep 1000, .sleep 1000] := by
  constructor
  · rfl
  · decide

/-- C2 (amended): counting cumulatively from loop entry, the session
retries a failing `WaitForCommand` up to 5 times with backoffs
1 s, 2 s, ..., and the 6th consecutive failure releases resources and
terminates the process without reading further replies; `n ≤ 5` initial
failures followed by a Run command produce exactly `n` linearly increasing
backoffs and leave the loop with the requested run level and node name. -/
theorem c2_retry_backoff (s : DebuggerState) (rest : List EventReplyM) (n : Nat)
    (lvl nd : String) (hn : n ≤ 5) :
    commandLoopGo s 0 (List.replicate 6 .fail ++ rest) =
      (s, [.sleep 1000, .sleep 2000, .sleep 3000, .sleep 4000, .sleep 5000,
        .clearRes, .exitProcess], true) ∧
    commandLoopGo s 0 (List.replicate n .fail ++ [.runCmd lvl nd]) =
      ({ s with run_level := lvl, node_name := nd },
        (List.range n).map (fun i => DebugAction.sleep (1000 * (i + 1))), false) := by
  constructor
  · rfl
  · interval_cases n <;> rfl

/-- Witness for C2 (amended) at `n = 3`. -/
theorem c2_retry_backoff_witness :
    commandLoopGo initDebugger 0 (List.replicate 6 .fail ++ []) =
      (initDebugger, [.sleep 1000, .sleep 2000, .sleep 3000, .sleep 4000, .sleep 5000,
        .clearRes, .exitProcess], true) ∧
    commandLoopGo initDebugger 0 (List.replicate 3 .fail ++ [.runCmd "node" "x"]) =
      ({ initDebugger with run_level := "node", node_name := "x" },
        (List.range 3).map (fun i => DebugAction.sleep (1000 * (i + 1))), false) :=
  c2_retry_backoff initDebugger [] 3 "node" "x" (by decide)

/-! ## `PostExecute`, `PreExecute` -/

/-- `Debugger::SendWatchpointsAndSuspend` (debugger.cc:628): send the hits
only when there are any, then always enter the command loop. -/
def sendWatchpointsAndSuspend (points : List (Nat × String)) : List DebugAction :=
  (if points.isEmpty then [] else [.sendWatchpointHits]) ++ [.enterCommandLoop]

/-- `Debugger::PostExecute` (debugger.cc:245).  `hits` is the result the
watchpoint evaluation (`CheckWatchpoints` over the full tensor set) would
produce; the `.checkWatchpointsFull` action records that this evaluation
happened. -/
def postExecute (s : DebuggerState) (env : DebuggerEnv) (hits : List (Nat × String)) :
    DebuggerState × List DebugAction :=
  if debuggerBackendEnabled s env then
    if s.run_level = "node" then (s, [])
    else if s.debugger_enabled && !s.is_dataset_graph then
      if s.device_target ≠ kGPUDevice then
        ({ s with num_step := s.num_step + 1 },
          .checkWatchpointsFull :: sendWatchpointsAndSuspend hits)
      else (s, [.enterCommandLoop])
    else (s, [])
  else (s, [])

/-- `Debugger::CheckDatasetGraph` (debugger.cc:334): the graph is a dataset
graph iff some execution-order node is `GetNext` or `InitDataSetQueue`. -/
def checkDatasetGraph (g : KernelGraph) : Bool :=
  g.execution_order.any fun node_name =>
    node_name == "GetNext" || node_name == "InitDataSetQueue"

/-- `Debugger::CheckGraphPtr` (debugger.cc:316): on a new graph, bind it and
classify it; only a non-dataset graph enables the debugger and, when
enabled, sends metadata and the graph topology and enters the command
loop (`SendGraphAndSuspend`, debugger.cc:361). -/
def checkGraphPtr (s : DebuggerState) (env : DebuggerEnv) (g : KernelGraph) :
    DebuggerState × List DebugAction :=
  if s.graph_ptr = some g then (s, [])
  else
    let s1 := { s with graph_ptr := some g, is_dataset_graph := checkDatasetGraph g }
    if s1.is_dataset_graph then (s1, [])
    else
      let s2 := enableDebugger s1 env
      if s2.debugger_enabled then
        (s2, [.sendMetadata, .sendGraph, .enterCommandLoop])
      else (s2, [])

/-- `Debugger::PreExecute` (debugger.cc:236). -/
def preExecute (s : DebuggerState) (env : DebuggerEnv) (g : KernelGraph) :
    DebuggerState × List DebugAction :=
  if debuggerBackendEnabled s env then checkGraphPtr s env g else (s, [])

/-- C3 (counterexample): on the GPU backend a `PostExecute` call made while
enabled, on a non-dataset graph, with run-level not `"node"`, does NOT
increment the step counter and does not evaluate watchpoints: it only
suspends. -/
theorem c3_counterexample :
    postExecute { initDebugger with debugger_enabled := true, device_target := "GPU" }
        { dump_data_enabled := false, enable_str := some "1", host_str := none,
          port_str := none, mem_reuse_str := none } [] =
      ({ initDebugger with debugger_enabled := true, device_target := "GPU" },
        [.enterCommandLoop]) := by
  decide

/-- C3 (amended): under the claim's preconditions, on a non-GPU backend
`PostExecute` increments the step counter, evaluates all watchpoints
against the full tensor set, reports hits when any matched, and then
suspends unconditionally; on the GPU backend it suspends unconditionally
without incrementing the step counter or evaluating watchpoints. -/
theorem c3_post_execute (s : DebuggerState) (env : DebuggerEnv)
    (hits : List (Nat × String)) (hbe : debuggerBackendEnabled s env = true)
    (hrl : s.run_level ≠ "node") (hen : s.debugger_enabled = true)
    (hds : s.is_dataset_graph = false) :
    (s.device_target ≠ kGPUDevice →
      postExecute s env hits =
        ({ s with num_step := s.num_step + 1 },
          .checkWatchpointsFull ::
            ((if hits.isEmpty then [] else [.sendWatchpointHits]) ++ [.enterCommandLoop]))) ∧
    (s.device_target = kGPUDevice → postExecute s env hits = (s, [.enterCommandLoop])) := by
  constructor
  · intro hgpu
    simp [postExecute, hbe, hrl, hen, hds, hgpu, sendWatchpointsAndSuspend]
  · intro hgpu
    simp [postExecute, hbe, hrl, hen, hds, hgpu]

/-- Witness for C3 (amended) on an Ascend-style backend with one hit. -/
theorem c3_post_execute_witness :
    (("Ascend" : String) ≠ kGPUDevice →
      postExecute { initDebugger with debugger_enabled := true, device_target := "Ascend" }
          { dump_data_enabled := false, enable_str := some "1", host_str := none,
            port_str := none, mem_reuse_str := none } [(1, "n")] =
        ({ initDebugger with
            debugger_enabled := true
            device_target := "Ascend"
            num_step := 0 + 1 },
          .checkWatchpointsFull ::
            ((if [((1 : Nat), ("n" : String))].isEmpty then [] else [.sendWatchpointHits]) ++
              [.enterCommandLoop]))) ∧
    (("Ascend" : String) = kGPUDevice →
      postExecute { initDebugger with debugger_enabled := true, device_target := "Ascend" }
          { dump_data_enabled := false, enable_str := some "1", host_str := none,
            port_str := none, mem_reuse_str := none } [(1, "n")] =
        ({ initDebugger with debugger_enabled := true, device_target := "Ascend" },
          [.enterCommandLoop])) :=
  c3_post_execute { initDebugger with debugger_enabled := true, device_target := "Ascend" }
    { dump_data_enabled := false, enable_str := some "1", host_str := none,
      port_str := none, mem_reuse_str := none } [(1, "n")] (by decide) (by decide)
    (by decide) (by decide)

/-- C4: a new graph whose execution order contains `GetNext` or
`InitDataSetQueue` is classified as a dataset graph and is never debugged:
no metadata/topology message is sent and the command loop is not entered
(no action at all is emitted), whatever watchpoints exist. -/
theorem c4_dataset_graph_never_debugged (s : DebuggerState) (env : DebuggerEnv)
    (g : KernelGraph) (hbe : debuggerBackendEnabled s env = true)
    (hnew : s.graph_ptr ≠ some g)
    (hds : "GetNext" ∈ g.execution_order ∨ "InitDataSetQueue" ∈ g.execution_order) :
    (preExecute s env g).1.is_dataset_graph = true ∧
    preExecute s env g =
      ({ s with graph_ptr := some g, is_dataset_graph := true }, []) := by
  have hcls : checkDatasetGraph g = true := by
    rw [checkDatasetGraph, List.any_eq_true]
    rcases hds with hm | hm
    · exact ⟨_, hm, by simp⟩
    · exact ⟨_, hm, by simp⟩
  have hpre : preExecute s env g =
      ({ s with graph_ptr := some g, is_dataset_graph := true }, []) := by
    rw [preExecute, if_pos hbe, checkGraphPtr, if_neg hnew]
    simp [hcls]
  exact ⟨by rw [hpre], hpre⟩

/-- Witness for C4 on a fresh session and a two-node dataset graph. -/
theorem c4_dataset_graph_never_debugged_witness :
    (preExecute initDebugger
        { dump_data_enabled := false, enable_str := some "1", host_str := none,
          port_str := none, mem_reuse_str := none }
        { graph_id := 1, execution_order := ["GetNext", "Conv2D"] }).1.is_dataset_graph =
      true ∧
    preExecute initDebugger
        { dump_data_enabled := false, enable_str := some "1", host_str := none,
          port_str := none, mem_reuse_str := none }
        { graph_id := 1, execution_order := ["GetNext", "Conv2D"] } =
      ({ initDebugger with
          graph_ptr := some { graph_id := 1, execution_order := ["GetNext", "Conv2D"] }
          is_dataset_graph := true }, []) :=
  c4_dataset_graph_never_debugged initDebugger
    { dump_data_enabled := false, enable_str := some "1", host_str := none,
      port_str := none, mem_reuse_str := none }
    { graph_id := 1, execution_order := ["GetNext", "Conv2D"] }
    (by decide) (by decide) (Or.inl (by decide))

/-! ## Overflow records: `BytestoInt64`, `CheckOpOverflow` -/

/-- C++ conversion `(uint64_t)c` of a `char` (signed byte, the default on
x86-64 Linux): sign extension is value mod `2 ^ 64`. -/
def u64OfChar (c : Int) : Nat := (c % (2 ^ 64 : Int)).toNat

/-- `BytestoInt64` (debugger.cc:753): OR together each `char`, converted to
`uint64_t` and shifted by `8 * i`; every `uint64_t` operation is mod
`2 ^ 64`.  Missing bytes read as 0 (the C++ buffer is zero-filled). -/
def bytestoInt64 (buffer : List Int) : Nat :=
  ((u64OfChar (buffer.getD 7 0) <<< 56) % 2 ^ 64) |||
  ((u64OfChar (buffer.getD 6 0) <<< 48) % 2 ^ 64) |||
  ((u64OfChar (buffer.getD 5 0) <<< 40) % 2 ^ 64) |||
  ((u64OfChar (buffer.getD 4 0) <<< 32) % 2 ^ 64) |||
  ((u64OfChar (buffer.getD 3 0) <<< 24) % 2 ^ 64) |||
  ((u64OfChar (buffer.getD 2 0) <<< 16) % 2 ^ 64) |||
  ((u64OfChar (buffer.getD 1 0) <<< 8) % 2 ^ 64) |||
  u64OfChar (buffer.getD 0 0)

/-- Modelled from the spec: the little-endian unsigned decoding the claim
states, `sum over i of (byte value of b[i]) * 2 ^ (8 * i)`; the byte value
of a `char` is its value mod 256. -/
def leByteSum (buffer : List Int) : Nat :=
  (List.range 8).foldl
    (fun acc i => acc + ((buffer.getD i 0) % 256).toNat * 2 ^ (8 * i)) 0

/-- One directory entry seen by `CheckOpOverflow` (debugger.cc:764):
whether it is a regular file, the `stod` value of the filename part after
the last `.` (`none` when the name has no `.`), whether the file opens, and
its raw bytes as `char` values. -/
structure OvfFile where
  is_reg : Bool
  ts : Option ℚ
  openable : Bool
  bytes : List Int
deriving DecidableEq

/-- The directory loop of `CheckOpOverflow` (debugger.cc:771): skip
non-regular entries, names without `.`, and timestamps at or below the
watermark; otherwise record the timestamp, read 256 bytes from offset 313,
decode `stream_id` at buffer offset 8 (file offset 321) and `task_id` at
buffer offset 16 (file offset 329), and report the op name mapped to the
`(stream_id, task_id)` pair (narrowed to `uint32_t` by the map's key type).
Returns `(bin_list, op_names)` in directory order. -/
def scanOverflowFiles (w : ℚ) (m : List ((Nat × Nat) × String)) :
    List OvfFile → List ℚ × List String
  | [] => ([], [])
  | f :: fs =>
    let rest := scanOverflowFiles w m fs
    if f.is_reg then
      match f.ts with
      | none => rest
      | some t =>
        if t ≤ w then rest
        else
          let ops :=
            if f.openable then
              let buffer := (f.bytes.drop 313).take 256
              let stream_id := bytestoInt64 ((buffer.drop 8).take 8)
              let task_id := bytestoInt64 ((buffer.drop 16).take 8)
              match m.find? fun e => e.1 == (stream_id % 2 ^ 32, task_id % 2 ^ 32) with
              | some e => [e.2]
              | none => []
            else []
          (t :: rest.1, ops ++ rest.2)
    else rest

/-- `Debugger::CheckOpOverflow` (debugger.cc:764): scan the directory, then
raise the watermark to every recorded timestamp above it. -/
def checkOpOverflow (s : DebuggerState) (files : List OvfFile) :
    DebuggerState × List String :=
  let scanned := scanOverflowFiles s.last_overflow_bin s.stream_task_to_opname files
  let w := scanned.1.foldl (fun acc i => if i > acc then i else acc) s.last_overflow_bin
  ({ s with last_overflow_bin := w }, scanned.2)

/-- The timestamp 3.1 as a reduced rational (31/10). -/
def ts31 : ℚ := ⟨31, 10, by decide, by decide⟩

/-- The timestamp 7.2 as a reduced rational (36/5). -/
def ts72 : ℚ := ⟨36, 5, by decide, by decide⟩

/-- The timestamps of exactly the regular, dot-suffixed files strictly above
the watermark `w`. -/
def processedTimestamps (w : ℚ) (files : List OvfFile) : List ℚ :=
  files.filterMap fun f =>
    if f.is_reg then f.ts.bind (fun t => if t ≤ w then none else some t) else none

theorem scanOverflowFiles_fst (w : ℚ) (m : List ((Nat × Nat) × String)) :
    ∀ files : List OvfFile, (scanOverflowFiles w m files).1 = processedTimestamps w files
  | [] => rfl
  | f :: fs => by
    have ih := scanOverflowFiles_fst w m fs
    rw [scanOverflowFiles, processedTimestamps, List.filterMap_cons]
    by_cases hreg : f.is_reg = true
    · rcases hts : f.ts with _ | t
      · simp [hreg, hts, ih, processedTimestamps]
      · by_cases hle : t ≤ w
        · simp [hreg, hts, hle, ih, processedTimestamps]
        · simp [hreg, hts, hle, ih, processedTimestamps]
    · rw [Bool.not_eq_true] at hreg
      simp [hreg, ih, processedTimestamps]

theorem foldl_if_gt_eq_foldl_max (l : List ℚ) (a : ℚ) :
    l.foldl (fun acc i => if i > acc then i else acc) a = l.foldl max a := by
  have hop : (fun (acc i : ℚ) => if i > acc then i else acc) = max := by
    funext acc i
    rcases le_or_lt i acc with hle | hlt
    · rw [if_neg (not_lt.mpr hle), max_eq_left hle]
    · rw [if_pos hlt, max_eq_right (le_of_lt hlt)]
  rw [hop]

theorem le_foldl_max : ∀ (l : List ℚ) (a : ℚ), a ≤ l.foldl max a
  | [], _ => le_refl _
  | t :: l, a => le_trans (le_max_left a t) (le_foldl_max l (max a t))

/-- C8: a scan records exactly the regular files whose timestamp is strictly
above the starting watermark; afterwards the watermark is the maximum of its
prior value and all recorded timestamps, so it never decreases.  On the
spec's concrete data: timestamps `{3.1, 7.2, 2.0}` raise the watermark from
0 to 7.2, after which a file stamped 5.0 is skipped entirely (no read, no
report, watermark unchanged) even though the same file is processed and
reported when the watermark is 0. -/
theorem c8_watermark_monotone (s : DebuggerState) (files : List OvfFile) :
    (scanOverflowFiles s.last_overflow_bin s.stream_task_to_opname files).1 =
      processedTimestamps s.last_overflow_bin files ∧
    (checkOpOverflow s files).1.last_overflow_bin =
      (processedTimestamps s.last_overflow_bin files).foldl max s.last_overflow_bin ∧
    s.last_overflow_bin ≤ (checkOpOverflow s files).1.last_overflow_bin ∧
    (checkOpOverflow { initDebugger with stream_task_to_opname := [((0, 0), "opX")] }
        [{ is_reg := true, ts := some ts31, openable := true, bytes := [] },
         { is_reg := true, ts := some ts72, openable := true, bytes := [] },
         { is_reg := true, ts := some 2, openable := true, bytes := [] }]).1.last_overflow_bin =
      ts72 ∧
    checkOpOverflow
        { initDebugger with
          last_overflow_bin := ts72
          stream_task_to_opname := [((0, 0), "opX")] }
        [{ is_reg := true, ts := some 5, openable := true, bytes := [] }] =
      ({ initDebugger with
          last_overflow_bin := ts72
          stream_task_to_opname := [((0, 0), "opX")] }, []) ∧
    (checkOpOverflow { initDebugger with stream_task_to_opname := [((0, 0), "opX")] }
        [{ is_reg := true, ts := some 5, openable := true, bytes := [] }]).2 = ["opX"] := by
  refine ⟨scanOverflowFiles_fst _ _ files, ?_, ?_, by decide, by decide, by decide⟩
  · show (scanOverflowFiles s.last_overflow_bin s.stream_task_to_opname files).1.foldl
        (fun acc i => if i > acc then i else acc) s.last_overflow_bin = _
    rw [scanOverflowFiles_fst, foldl_if_gt_eq_foldl_max]
  · show s.last_overflow_bin ≤
      (scanOverflowFiles s.last_overflow_bin s.stream_task_to_opname files).1.foldl
        (fun acc i => if i > acc then i else acc) s.last_overflow_bin
    rw [foldl_if_gt_eq_foldl_max]
    exact le_foldl_max _ _

/-- The bytes of an overflow record file: zeros except value 1 at file
offset 321 and value 2 at file offset 329. -/
def ovfRecordBytes : List Int :=
  List.replicate 321 0 ++ 1 :: List.replicate 7 0 ++ 2 :: List.replicate 7 0

/-- C9: `BytestoInt64` is NOT the little-endian unsigned decode on every
buffer: for the buffer whose byte 0 has value 0x80 (`char` value −128), the
code computes `2 ^ 64 − 128` (the sign-extended chars are OR-ed in) while
the little-endian value of the field is 128.  The fixed offsets themselves
are as claimed: a file with byte 1 at offset 321 and byte 2 at offset 329
resolves to `(stream_id, task_id) = (1, 2)`. -/
theorem c9_bytesto_int64_sign_extension :
    bytestoInt64 [-128, 0, 0, 0, 0, 0, 0, 0] = 18446744073709551488 ∧
    leByteSum [-128, 0, 0, 0, 0, 0, 0, 0] = 128 ∧
    bytestoInt64 [-128, 0, 0, 0, 0, 0, 0, 0] ≠ leByteSum [-128, 0, 0, 0, 0, 0, 0, 0] ∧
    bytestoInt64 [1, 2, 0, 0, 0, 0, 0, 0] = 513 ∧
    leByteSum [1, 2, 0, 0, 0, 0, 0, 0] = 513 ∧
    scanOverflowFiles 0 [((1, 2), "opY")]
        [{ is_reg := true, ts := some 1, openable := true, bytes := ovfRecordBytes }] =
      ([1], ["opY"]) := by
  refine ⟨by decide, by decide, by decide, by decide, by decide, by decide⟩

end Mindspore
